import Mathlib

/-!
Shallow embedding of the numerical core of `manim_scenes.py`
(dynamical-systems visualization repository): discrete Hénon map
iteration, Poincaré section-crossing detectors (Van der Pol, Lorenz,
Rössler), the return-map builder, Hénon fixed points, and the
eigenvalue-based stability classifier.  Real-number arithmetic of the
source (Python floats) is modelled exactly over ℚ, except for the
fixed-point solver whose square root forces ℝ.
-/

/-- Source `henon_map(x, y, a, b)`:
`x_{n+1} = 1 - a*x_n^2 + y_n`, `y_{n+1} = b*x_n`. -/
def henon_map (x y a b : ℚ) : ℚ × ℚ :=
  (1 - a * x ^ 2 + y, b * x)

/-- One step of the Hénon iteration loop on a state pair. -/
def henonStep (a b : ℚ) (s : ℚ × ℚ) : ℚ × ℚ :=
  henon_map s.1 s.2 a b

/-- The collection loop of `iterate_henon`: starting from the current
state `s` (already appended by `xs, ys = [x], [y]` in the source) it
applies the map `n` more times, appending each new state. -/
def henonCollect (a b : ℚ) : ℚ × ℚ → ℕ → List (ℚ × ℚ)
  | s, 0 => [s]
  | s, n + 1 => s :: henonCollect a b (henonStep a b s) n

/-- Source `iterate_henon(a, b, x0, y0, n_iter, n_transient)`: runs the
transient loop `n_transient` times from `(x0, y0)`, then seeds the
output lists with the current state and appends `n_iter` further
iterates.  The two returned arrays are modelled as one list of pairs. -/
def iterate_henon (a b x0 y0 : ℚ) (n_iter n_transient : ℕ) : List (ℚ × ℚ) :=
  henonCollect a b ((henonStep a b)^[n_transient] (x0, y0)) n_iter

/-- The interpolated crossing value of `compute_vdp_poincare_map`
(source lines 52-57): if `abs(ys[i] - ys[i-1]) > 1e-10` then
`xs[i-1] + t_frac * (xs[i] - xs[i-1])` with
`t_frac = -ys[i-1] / (ys[i] - ys[i-1])`, else `xs[i]` verbatim. -/
def vdpInterp (xprev x yprev y : ℚ) : ℚ :=
  if 1 / 10 ^ 10 < |y - yprev| then xprev + (-yprev / (y - yprev)) * (x - xprev) else x

/-- The crossing-detection loop of `compute_vdp_poincare_map` (source
lines 49-58): scan consecutive samples; keep a crossing when
`ys[i-1] < 0 and ys[i] >= 0 and xs[i] > 0`, recording the interpolated
`x` value. -/
def vdpCrossings : List ℚ → List ℚ → List ℚ
  | xprev :: x :: xs, yprev :: y :: ys =>
      (if yprev < 0 ∧ 0 ≤ y ∧ 0 < x then [vdpInterp xprev x yprev y] else [])
        ++ vdpCrossings (x :: xs) (y :: ys)
  | _, _ => []

/-- Source line 61: the return-map builder
`[(crossings[i], crossings[i+1]) for i in range(len(crossings)-1)]`. -/
def build_return_map (crossings : List ℚ) : List (ℚ × ℚ) :=
  (List.range (crossings.length - 1)).map
    fun i => (crossings.getD i 0, crossings.getD (i + 1) 0)

/-- The eigenvalue pair returned by `henon_jacobian_eigenvalues`:
either two real eigenvalues (discriminant `>= 0`) or a complex-conjugate
pair (the `isinstance(eig1, complex)` branch of the classifier). -/
inductive EigPair where
  | real (lam1 lam2 : ℚ) : EigPair
  | cplx (re im : ℚ) : EigPair

/-- The stability classifier of `HenonAttractorScene.construct`
(source lines 826-831): complex pair ⇒ "spiral";
`abs(eig1) > 1 or abs(eig2) > 1` ⇒ "saddle"; otherwise "stable". -/
def classify_stability : EigPair → String
  | EigPair.cplx _ _ => "spiral"
  | EigPair.real lam1 lam2 => if 1 < |lam1| ∨ 1 < |lam2| then "saddle" else "stable"

/-- The guard of `compute_poincare_crossings` (source line 320):
`zs[i-1] < z_section <= zs[i]`. -/
def lorenzCrossCond (zprev z z_section : ℚ) : Prop :=
  zprev < z_section ∧ z_section ≤ z

instance (zprev z z_section : ℚ) : Decidable (lorenzCrossCond zprev z z_section) :=
  inferInstanceAs (Decidable (zprev < z_section ∧ z_section ≤ z))

/-- The unguarded interpolation fraction of `compute_poincare_crossings`
(source line 322): `t_frac = (z_section - zs[i-1]) / (zs[i] - zs[i-1])`. -/
def lorenz_t_frac (zprev z z_section : ℚ) : ℚ :=
  (z_section - zprev) / (z - zprev)

/-- Source `compute_poincare_crossings(xs, ys, zs, z_section)` (lines
313-326): loop `i` over `range(1, len(zs))`; on the guard append the
interpolated `(x_cross, y_cross, z_section)`. -/
def compute_poincare_crossings (xs ys zs : List ℚ) (z_section : ℚ) :
    List (ℚ × ℚ × ℚ) :=
  (List.range' 1 (zs.length - 1)).foldl
    (fun crossings i =>
      if lorenzCrossCond (zs.getD (i - 1) 0) (zs.getD i 0) z_section then
        crossings ++
          [(xs.getD (i - 1) 0 +
              lorenz_t_frac (zs.getD (i - 1) 0) (zs.getD i 0) z_section *
                (xs.getD i 0 - xs.getD (i - 1) 0),
            ys.getD (i - 1) 0 +
              lorenz_t_frac (zs.getD (i - 1) 0) (zs.getD i 0) z_section *
                (ys.getD i 0 - ys.getD (i - 1) 0),
            z_section)]
      else crossings)
    []

/-- The `values` selection of `compute_rossler_poincare` (source lines
1007-1012): `ys` for axis "y", `xs` for axis "x", `zs` otherwise. -/
def rosslerValues (xs ys zs : List ℚ) (section_axis : String) : List ℚ :=
  if section_axis = "y" then ys else if section_axis = "x" then xs else zs

/-- The crossing test of `compute_rossler_poincare` at index `i`
(source lines 1015-1018): for direction "positive",
`values[i-1] < section_value <= values[i]`; otherwise
`values[i-1] > section_value >= values[i]`. -/
def rosslerCrossesAt (values : List ℚ) (section_value : ℚ) (direction : String)
    (i : ℕ) : Bool :=
  if direction = "positive" then
    decide (values.getD (i - 1) 0 < section_value ∧ section_value ≤ values.getD i 0)
  else
    decide (values.getD (i - 1) 0 > section_value ∧ section_value ≥ values.getD i 0)

/-- The interpolation fraction of `compute_rossler_poincare` (source
lines 1022-1025): the guarded quotient, `1/2` when the denominator
magnitude is not above `1e-10`. -/
def rosslerFrac (values : List ℚ) (section_value : ℚ) (i : ℕ) : ℚ :=
  if 1 / 10 ^ 10 < |values.getD i 0 - values.getD (i - 1) 0| then
    (section_value - values.getD (i - 1) 0) /
      (values.getD i 0 - values.getD (i - 1) 0)
  else 1 / 2

/-- The component-wise interpolated crossing state of
`compute_rossler_poincare` (source lines 1027-1030). -/
def rosslerCrossingState (xs ys zs values : List ℚ) (section_value : ℚ)
    (i : ℕ) : ℚ × ℚ × ℚ :=
  (xs.getD (i - 1) 0 +
      rosslerFrac values section_value i * (xs.getD i 0 - xs.getD (i - 1) 0),
    ys.getD (i - 1) 0 +
      rosslerFrac values section_value i * (ys.getD i 0 - ys.getD (i - 1) 0),
    zs.getD (i - 1) 0 +
      rosslerFrac values section_value i * (zs.getD i 0 - zs.getD (i - 1) 0))

/-- Source `compute_rossler_poincare(xs, ys, zs, section_axis,
section_value, direction)` (lines 1000-1032): select `values` by axis,
loop `i` over `range(1, len(values))`, append the interpolated state on
each detected crossing. -/
def compute_rossler_poincare (xs ys zs : List ℚ) (section_axis : String)
    (section_value : ℚ) (direction : String) : List (ℚ × ℚ × ℚ) :=
  let values := if section_axis = "y" then ys else if section_axis = "x" then xs else zs
  (List.range' 1 (values.length - 1)).foldl
    (fun crossings i =>
      let crossing : Bool :=
        if direction = "positive" then
          decide (values.getD (i - 1) 0 < section_value ∧ section_value ≤ values.getD i 0)
        else
          decide (values.getD (i - 1) 0 > section_value ∧ section_value ≥ values.getD i 0)
      if crossing then
        let t_frac : ℚ :=
          if 1 / 10 ^ 10 < |values.getD i 0 - values.getD (i - 1) 0| then
            (section_value - values.getD (i - 1) 0) /
              (values.getD i 0 - values.getD (i - 1) 0)
          else 1 / 2
        crossings ++
          [(xs.getD (i - 1) 0 + t_frac * (xs.getD i 0 - xs.getD (i - 1) 0),
            ys.getD (i - 1) 0 + t_frac * (ys.getD i 0 - ys.getD (i - 1) 0),
            zs.getD (i - 1) 0 + t_frac * (zs.getD i 0 - zs.getD (i - 1) 0))]
      else crossings)
    []

/-- Declarative restatement of the C6 claim sentence: one entry per
index `i` in `range(1, len(values))` whose window satisfies the
direction-dependent crossing test, in index order, each entry the
component-wise interpolated state. -/
def rossler_poincare_spec (xs ys zs : List ℚ) (section_axis : String)
    (section_value : ℚ) (direction : String) : List (ℚ × ℚ × ℚ) :=
  ((List.range' 1 ((rosslerValues xs ys zs section_axis).length - 1)).filter
      (rosslerCrossesAt (rosslerValues xs ys zs section_axis) section_value direction)).map
    (rosslerCrossingState xs ys zs (rosslerValues xs ys zs section_axis) section_value)

/-- Source `henon_fixed_points(a, b)` (lines 705-723): discriminant
`(1-b)**2 + 4*a`; if negative return `[]`; otherwise the two points
`(x1, b*x1), (x2, b*x2)` with `x = (-(1-b) ± sqrt(disc)) / (2a)`
(the source's `sqrt_disc`, `x1`, `x2`, `y1`, `y2` bindings inlined). -/
noncomputable def henon_fixed_points (a b : ℝ) : List (ℝ × ℝ) :=
  if (1 - b) ^ 2 + 4 * a < 0 then []
  else
    [((-(1 - b) + Real.sqrt ((1 - b) ^ 2 + 4 * a)) / (2 * a),
      b * ((-(1 - b) + Real.sqrt ((1 - b) ^ 2 + 4 * a)) / (2 * a))),
     ((-(1 - b) - Real.sqrt ((1 - b) ^ 2 + 4 * a)) / (2 * a),
      b * ((-(1 - b) - Real.sqrt ((1 - b) ^ 2 + 4 * a)) / (2 * a)))]

theorem henonCollect_length (a b : ℚ) (s : ℚ × ℚ) (n : ℕ) :
    (henonCollect a b s n).length = n + 1 := by
  induction n generalizing s with
  | zero => rfl
  | succ n ih => simp [henonCollect, ih]

theorem henonCollect_getElem? (a b : ℚ) (s : ℚ × ℚ) (n i : ℕ) :
    (henonCollect a b s n)[i]? =
      if i ≤ n then some ((henonStep a b)^[i] s) else none := by
  induction n generalizing s i with
  | zero =>
    cases i with
    | zero => rfl
    | succ j => simp [henonCollect]
  | succ n ih =>
    cases i with
    | zero => simp [henonCollect]
    | succ j =>
      simp only [henonCollect, List.getElem?_cons_succ, ih,
        Nat.succ_le_succ_iff, Function.iterate_succ_apply]

/-- Claim C1 (counterexample): with seed `(0,0)`, `a=1.4`, `b=0.3`,
`n_transient = T = 1` and `n_iter = R = 1`, the iteration does not
return exactly `R = 1` retained states with first state equal to the
map applied `T+1 = 2` times to the seed: it returns 2 states, the first
being the map applied only once. -/
theorem iterate_henon_claim_counterexample :
    ¬ ((iterate_henon (7/5) (3/10) 0 0 1 1).length = 1 ∧
       (iterate_henon (7/5) (3/10) 0 0 1 1)[0]? =
         some ((henonStep (7/5) (3/10))^[1+1] (0, 0))) := by
  rintro ⟨h, -⟩
  rw [iterate_henon, henonCollect_length] at h
  omega

/-- Claim C1 (amended): `iterate_henon` with `n_transient = T` and
`n_iter = R` returns exactly `R + 1` retained states, and the first
retained state equals the map applied `T` times to the seed. -/
theorem iterate_henon_retained_spec (a b x0 y0 : ℚ) (R T : ℕ) :
    (iterate_henon a b x0 y0 R T).length = R + 1 ∧
    (iterate_henon a b x0 y0 R T)[0]? = some ((henonStep a b)^[T] (x0, y0)) := by
  constructor
  · rw [iterate_henon, henonCollect_length]
  · rw [iterate_henon, henonCollect_getElem?]
    simp

/-- Claim C4 (counterexample): with `a=2`, `b=1`, seed `(10^200, 0)`,
`n_transient = 0`, `n_iter = 1`, the very first applied iterate has
`|x| = 2*10^400 - 1 ≥ 2^1024`, i.e. beyond every finite IEEE-754 double
(the source's float squaring overflows to a non-finite value here), yet
the iteration returns the full list of `n_iter + 1 = 2` states with
that value placed verbatim in the retained set — no failure of any kind
is raised and no index is reported. -/
theorem iterate_henon_divergence_counterexample :
    (iterate_henon 2 1 (10 ^ 200) 0 1 0).length = 2 ∧
    (2 : ℚ) ^ 1024 ≤ |((iterate_henon 2 1 (10 ^ 200) 0 1 0).getD 1 (0, 0)).1| := by
  constructor
  · rw [iterate_henon, henonCollect_length]
  · norm_num [iterate_henon, henonCollect, henonStep, henon_map]

/-- Claim C4 (amended): `iterate_henon` performs no finiteness check of
any kind: for every input it returns exactly `n_iter + 1` retained
states, and the state at every retained index `i ≤ n_iter` is the exact
`(n_transient + i)`-fold iterate of the seed, however large — escaping
values are propagated verbatim into the returned point cloud and no
divergence failure can be surfaced. -/
theorem iterate_henon_no_divergence_handling (a b x0 y0 : ℚ) (R T i : ℕ) :
    (iterate_henon a b x0 y0 R T).length = R + 1 ∧
    (iterate_henon a b x0 y0 R T)[i]? =
      if i ≤ R then some ((henonStep a b)^[T + i] (x0, y0)) else none := by
  constructor
  · rw [iterate_henon, henonCollect_length]
  · rw [iterate_henon, henonCollect_getElem?, Nat.add_comm T i,
      Function.iterate_add_apply]

/-- Claim C2 (counterexample): for the samples `xs = [3, -1]`,
`ys = [-1, 1]` the primary section test passes (`ys[0] < 0 ≤ ys[1]`)
and the interpolated crossing state has `x = 1 > 0`, yet the crossing
is dropped — because the source filters on the pre-interpolation sample
`xs[1] = -1 > 0`, not on the interpolated state. -/
theorem vdp_secondary_filter_counterexample :
    vdpCrossings [3, -1] [-1, 1] = [] ∧
    (-1 : ℚ) < 0 ∧ (0 : ℚ) ≤ 1 ∧ 0 < vdpInterp 3 (-1) (-1) 1 := by
  refine ⟨?_, by norm_num, by norm_num, by norm_num [vdpInterp]⟩
  norm_num [vdpCrossings]

/-- Claim C2 (amended): when the primary section test passes
(`ys[i-1] < 0 ≤ ys[i]`), the crossing is kept if and only if the
pre-interpolation upper sample has `xs[i] > 0`; the auxiliary sign
condition is evaluated on the raw sample in the same conjunction as the
primary test, before interpolation, and the recorded value is the
interpolated crossing. -/
theorem vdpCrossings_keep_iff_sample (x0 x1 y0 y1 : ℚ) (xs ys : List ℚ)
    (hy0 : y0 < 0) (hy1 : 0 ≤ y1) :
    vdpCrossings (x0 :: x1 :: xs) (y0 :: y1 :: ys) =
      (if 0 < x1 then [vdpInterp x0 x1 y0 y1] else []) ++
        vdpCrossings (x1 :: xs) (y1 :: ys) := by
  simp only [vdpCrossings]
  simp [hy0, hy1]

/-- Witness for the amended C2 theorem at `xs = [3, -1]`,
`ys = [-1, 1]`. -/
theorem vdpCrossings_keep_iff_sample_witness :
    ((-1 : ℚ) < 0 ∧ (0 : ℚ) ≤ 1) ∧
    vdpCrossings [3, -1] [-1, 1] =
      (if (0 : ℚ) < -1 then [vdpInterp 3 (-1) (-1) 1] else []) ++
        vdpCrossings [-1] [1] :=
  ⟨⟨by norm_num, by norm_num⟩,
    vdpCrossings_keep_iff_sample 3 (-1) (-1) 1 [] [] (by norm_num) (by norm_num)⟩

/-- Claim C3 (counterexample): for the real eigenvalue pair `(1, 1/2)`
with `|λ₁| = 1` exactly on the boundary, the classifier reports
"stable", not "marginal": the boundary case is silently folded into
the stable class. -/
theorem classify_marginal_counterexample :
    classify_stability (EigPair.real 1 (1/2)) = "stable" ∧
    ("stable" : String) ≠ "marginal" := by
  refine ⟨?_, by decide⟩
  have h2 : |(1 : ℚ)/2| = 1/2 := by norm_num
  norm_num [classify_stability, h2]

/-- Claim C3 (amended): the classifier has no "marginal" class at all:
a real eigenvalue pair with one magnitude exactly 1 is classified
"saddle" when the other magnitude exceeds 1 and "stable" otherwise,
and no input whatsoever is classified "marginal". -/
theorem classify_boundary_folded (lam1 lam2 : ℚ) (p : EigPair)
    (h : |lam1| = 1) :
    classify_stability (EigPair.real lam1 lam2) =
      (if 1 < |lam2| then "saddle" else "stable") ∧
    classify_stability p ≠ "marginal" := by
  constructor
  · simp only [classify_stability]
    rw [h]
    simp
  · cases p with
    | real l1 l2 =>
      simp only [classify_stability]
      split <;> decide
    | cplx r i =>
      simp only [classify_stability]
      decide

/-- Witness for the amended C3 theorem at the boundary pair `(1, 0)`. -/
theorem classify_boundary_folded_witness :
    |(1 : ℚ)| = 1 ∧
    (classify_stability (EigPair.real 1 0) =
        (if 1 < |(0 : ℚ)| then "saddle" else "stable") ∧
      classify_stability (EigPair.real 1 0) ≠ "marginal") :=
  ⟨by norm_num, classify_boundary_folded 1 0 (EigPair.real 1 0) (by norm_num)⟩

/-- Claim C5 (counterexample): for the real eigenvalue pair `(2, 3)`
with both magnitudes strictly greater than 1, the classifier returns
"saddle", not "repelling": there is no repelling class. -/
theorem classify_repelling_counterexample :
    classify_stability (EigPair.real 2 3) = "saddle" ∧
    ("saddle" : String) ≠ "repelling" := by
  refine ⟨?_, by decide⟩
  norm_num [classify_stability]

/-- Claim C5 (amended): whenever at least one real eigenvalue magnitude
exceeds 1 — including when both do — the classifier returns "saddle",
and no input whatsoever is classified "repelling". -/
theorem classify_expanding_saddle (lam1 lam2 : ℚ) (p : EigPair)
    (h : 1 < |lam1| ∨ 1 < |lam2|) :
    classify_stability (EigPair.real lam1 lam2) = "saddle" ∧
    classify_stability p ≠ "repelling" := by
  constructor
  · simp only [classify_stability]
    rw [if_pos h]
  · cases p with
    | real l1 l2 =>
      simp only [classify_stability]
      split <;> decide
    | cplx r i =>
      simp only [classify_stability]
      decide

/-- Witness for the amended C5 theorem at the pair `(2, 3)` with both
magnitudes above 1. -/
theorem classify_expanding_saddle_witness :
    ((1 : ℚ) < |(2 : ℚ)| ∨ (1 : ℚ) < |(3 : ℚ)|) ∧
    (classify_stability (EigPair.real 2 3) = "saddle" ∧
      classify_stability (EigPair.cplx 1 2) ≠ "repelling") :=
  ⟨Or.inl (by norm_num),
    classify_expanding_saddle 2 3 (EigPair.cplx 1 2) (Or.inl (by norm_num))⟩

theorem foldl_if_append_eq_filter_map {α β : Type} (p : α → Bool) (f : α → β) :
    ∀ (l : List α) (acc : List β),
      l.foldl (fun acc2 i => if p i then acc2 ++ [f i] else acc2) acc
        = acc ++ (l.filter p).map f := by
  intro l
  induction l with
  | nil => intro acc; simp
  | cons a t ih =>
    intro acc
    by_cases h : p a
    · simp [List.foldl_cons, h, ih, List.filter_cons]
    · simp [List.foldl_cons, h, ih, List.filter_cons]

/-- Claim C6: `compute_rossler_poincare` registers a crossing between
samples `i-1` and `i` exactly under the direction-dependent window test
(`values[i-1] < v <= values[i]` for "positive", the reversed inclusive
test otherwise); each recorded state is the component-wise linear
interpolation with the epsilon-guarded fraction, and the output has one
entry per detected crossing in index (chronological) order — i.e. the
loop equals the declarative filter-then-interpolate restatement of the
claim. -/
theorem compute_rossler_poincare_eq_spec (xs ys zs : List ℚ) (section_axis : String)
    (section_value : ℚ) (direction : String) :
    compute_rossler_poincare xs ys zs section_axis section_value direction =
      rossler_poincare_spec xs ys zs section_axis section_value direction := by
  show (List.range' 1 ((rosslerValues xs ys zs section_axis).length - 1)).foldl
      (fun crossings i =>
        if rosslerCrossesAt (rosslerValues xs ys zs section_axis) section_value direction i then
          crossings ++
            [rosslerCrossingState xs ys zs (rosslerValues xs ys zs section_axis) section_value i]
        else crossings) []
    = rossler_poincare_spec xs ys zs section_axis section_value direction
  rw [foldl_if_append_eq_filter_map]
  rw [List.nil_append]
  rfl

theorem build_return_map_eq_zip (l : List ℚ) :
    build_return_map l = l.zip l.tail := by
  induction l with
  | nil => rfl
  | cons a t ih =>
    cases t with
    | nil => rfl
    | cons b t2 =>
      have h1 : (a :: b :: t2 : List ℚ).length - 1 = (b :: t2 : List ℚ).length - 1 + 1 := by
        simp
      unfold build_return_map
      rw [h1, List.range_succ_eq_map, List.map_cons, List.map_map]
      have h2 : ((fun i => ((a :: b :: t2).getD i 0, (a :: b :: t2).getD (i + 1) 0)) ∘ Nat.succ)
          = fun i => ((b :: t2).getD i 0, (b :: t2).getD (i + 1) 0) := by
        funext i
        simp [List.getD_cons_succ]
      rw [h2]
      unfold build_return_map at ih
      rw [ih]
      simp [List.zip_cons_cons]

theorem build_return_map_get (crossings : List ℚ) (i : ℕ) :
    (build_return_map crossings)[i]? =
      if i + 1 < crossings.length then
        some (crossings.getD i 0, crossings.getD (i + 1) 0) else none := by
  simp only [build_return_map, List.getElem?_map]
  by_cases h : i < crossings.length - 1
  · rw [List.getElem?_range h, if_pos (by omega)]
    rfl
  · rw [List.getElem?_eq_none (by simp only [List.length_range]; omega),
      if_neg (by omega)]
    rfl

/-- Claim C7: for `k` crossings the return-map builder yields exactly
`k - 1` pairs (truncated subtraction, so `max(k-1,0)`: `k = 0` and
`k = 1` both give the empty list, not an error); the builder equals
zipping the crossing list with its own tail, so the `i`-th pair is
`(crossing_i, crossing_{i+1})` and the pairs appear in the chronological
order of the crossing sequence. -/
theorem build_return_map_pairs (crossings : List ℚ) (i : ℕ) :
    (build_return_map crossings).length = crossings.length - 1 ∧
    build_return_map crossings = crossings.zip crossings.tail ∧
    (build_return_map crossings)[i]? =
      if i + 1 < crossings.length then
        some (crossings.getD i 0, crossings.getD (i + 1) 0) else none := by
  refine ⟨?_, build_return_map_eq_zip crossings, build_return_map_get crossings i⟩
  simp [build_return_map]

/-- Claim C9: whenever the Lorenz crossing detector registers a
crossing (`zs[i-1] < z_section <= zs[i]`), the unguarded interpolation
denominator `zs[i] - zs[i-1]` is strictly positive, so the division in
`t_frac` is well-defined and `t_frac` lies in the half-open interval
`(0, 1]`; the epsilon fallback used by the other detectors is never
needed. -/
theorem lorenz_crossing_denominator_safe (zprev z z_section : ℚ)
    (h : lorenzCrossCond zprev z z_section) :
    0 < z - zprev ∧
    0 < lorenz_t_frac zprev z z_section ∧ lorenz_t_frac zprev z z_section ≤ 1 := by
  obtain ⟨h1, h2⟩ := h
  have hden : 0 < z - zprev := by linarith
  refine ⟨hden, ?_, ?_⟩
  · exact div_pos (by linarith) hden
  · rw [lorenz_t_frac, div_le_one hden]
    linarith

/-- Witness for the C9 theorem at the crossing window
`zs[i-1] = 0 < z_section = 1 ≤ zs[i] = 2`. -/
theorem lorenz_crossing_denominator_safe_witness :
    lorenzCrossCond 0 2 1 ∧
    (0 < (2 : ℚ) - 0 ∧ 0 < lorenz_t_frac 0 2 1 ∧ lorenz_t_frac 0 2 1 ≤ 1) :=
  ⟨⟨by norm_num, by norm_num⟩,
    lorenz_crossing_denominator_safe 0 2 1 ⟨by norm_num, by norm_num⟩⟩

theorem henon_root_eq (a b x : ℝ) (ha : a ≠ 0) (hd : 0 ≤ (1 - b) ^ 2 + 4 * a)
    (hx : x = (-(1 - b) + Real.sqrt ((1 - b) ^ 2 + 4 * a)) / (2 * a) ∨
          x = (-(1 - b) - Real.sqrt ((1 - b) ^ 2 + 4 * a)) / (2 * a)) :
    x = 1 - a * x ^ 2 + b * x := by
  have hs : Real.sqrt ((1 - b) ^ 2 + 4 * a) ^ 2 = (1 - b) ^ 2 + 4 * a :=
    Real.sq_sqrt hd
  rcases hx with h | h <;> subst h <;> field_simp <;>
    linear_combination (4 * a ^ 3) * hs

/-- Claim C8: for `a = 1.4`, `b = 0.3` the discriminant
`(1-b)^2 + 4a` equals `6.09 = 609/100 > 0` and `henon_fixed_points`
returns exactly two points, each satisfying the Hénon fixed-point
equations `x = 1 - a*x^2 + y` and `y = b*x`; and for every parameter
pair with negative discriminant it returns the empty list, not an
error. -/
theorem henon_fixed_points_spec (a b : ℝ) (hneg : (1 - b) ^ 2 + 4 * a < 0) :
    (((1 : ℝ) - 3/10) ^ 2 + 4 * (7/5) = 609/100 ∧ (0 : ℝ) < 609/100) ∧
    (∃ p q : ℝ × ℝ, henon_fixed_points (7/5) (3/10) = [p, q] ∧
      (p.1 = 1 - 7/5 * p.1 ^ 2 + p.2 ∧ p.2 = 3/10 * p.1) ∧
      (q.1 = 1 - 7/5 * q.1 ^ 2 + q.2 ∧ q.2 = 3/10 * q.1)) ∧
    henon_fixed_points a b = [] := by
  refine ⟨⟨by norm_num, by norm_num⟩, ?_, ?_⟩
  · have hd : (0 : ℝ) ≤ (1 - 3/10) ^ 2 + 4 * (7/5) := by norm_num
    unfold henon_fixed_points
    split_ifs with hc
    · exfalso
      norm_num at hc
    · refine ⟨_, _, rfl, ⟨?_, rfl⟩, ⟨?_, rfl⟩⟩
      · exact henon_root_eq (7/5) (3/10) _ (by norm_num) hd (Or.inl rfl)
      · exact henon_root_eq (7/5) (3/10) _ (by norm_num) hd (Or.inr rfl)
  · unfold henon_fixed_points
    rw [if_pos hneg]

/-- Witness for the C8 theorem: `a = -2`, `b = 1` gives discriminant
`-8 < 0` and the empty fixed-point list. -/
theorem henon_fixed_points_spec_witness :
    ((1 : ℝ) - 1) ^ 2 + 4 * (-2) < 0 ∧
    ((((1 : ℝ) - 3/10) ^ 2 + 4 * (7/5) = 609/100 ∧ (0 : ℝ) < 609/100) ∧
      (∃ p q : ℝ × ℝ, henon_fixed_points (7/5) (3/10) = [p, q] ∧
        (p.1 = 1 - 7/5 * p.1 ^ 2 + p.2 ∧ p.2 = 3/10 * p.1) ∧
        (q.1 = 1 - 7/5 * q.1 ^ 2 + q.2 ∧ q.2 = 3/10 * q.1)) ∧
      henon_fixed_points (-2) 1 = []) :=
  ⟨by norm_num, henon_fixed_points_spec (-2) 1 (by norm_num)⟩

/-- Claim C10: for every `a > 0` and every `b`, the discriminant
`(1-b)^2 + 4a` is strictly positive, so the negative-discriminant
branch of `henon_fixed_points` is unreachable and the function returns
exactly two fixed points whose `x`-coordinates are distinct. -/
theorem henon_fixed_points_always_two (a b : ℝ) (ha : 0 < a) :
    0 < (1 - b) ^ 2 + 4 * a ∧
    ∃ p q : ℝ × ℝ, henon_fixed_points a b = [p, q] ∧ p.1 ≠ q.1 := by
  have hdpos : 0 < (1 - b) ^ 2 + 4 * a := by positivity
  refine ⟨hdpos, ?_⟩
  have hnneg : ¬ ((1 - b) ^ 2 + 4 * a < 0) := by linarith
  unfold henon_fixed_points
  rw [if_neg hnneg]
  refine ⟨_, _, rfl, ?_⟩
  have hspos : 0 < Real.sqrt ((1 - b) ^ 2 + 4 * a) := Real.sqrt_pos.mpr hdpos
  have h2a : (2 : ℝ) * a ≠ 0 := by positivity
  intro hEq
  have hEq2 : (-(1 - b) + Real.sqrt ((1 - b) ^ 2 + 4 * a)) / (2 * a)
      = (-(1 - b) - Real.sqrt ((1 - b) ^ 2 + 4 * a)) / (2 * a) := hEq
  rw [div_eq_div_iff h2a h2a] at hEq2
  nlinarith [mul_pos ha hspos]

/-- Witness for the C10 theorem at the classic parameters `a = 1.4`,
`b = 0.3`. -/
theorem henon_fixed_points_always_two_witness :
    (0 : ℝ) < 7/5 ∧
    (0 < ((1 : ℝ) - 3/10) ^ 2 + 4 * (7/5) ∧
      ∃ p q : ℝ × ℝ, henon_fixed_points (7/5) (3/10) = [p, q] ∧ p.1 ≠ q.1) :=
  ⟨by norm_num, henon_fixed_points_always_two (7/5) (3/10) (by norm_num)⟩
